import Mathlib

/-!
Formal model of the catalog-pricing pipeline in `pdf_extractor_robust.py`.

The pipeline functions are shallowly embedded:

* spreadsheet cells (as pandas hands them to `ler_excel_precos`) become the
  inductive `Cell` (missing / numeric / textual), monetary values become `ℚ`,
  and Python `int()` truncation becomes `pyInt`;
* the Python dict `produtos_dict` becomes an insertion-ordered association
  list with overwriting insertion (`upsert`);
* per-page regex results become explicit per-pattern match lists
  (`PaginaTexto`), since the regex engine itself is a library external to the
  repository;
* the FPDF page assembly becomes a list of `PageOut` records carrying the
  observable effects of `criar_pdf_com_precos` on one page: its index,
  whether the footer band was painted, and the drawn price line.
-/

namespace Catalogo

/-- Python `int(x)` on a rational value: truncation toward zero. -/
def pyInt (q : ℚ) : ℤ := q.num.tdiv q.den

/-- `arredondar_preco_para_terminar_em_7` (lines 243-268 of
`pdf_extractor_robust.py`): truncate, then move down to the nearest integer
ending in 7. -/
def arredondar_preco_para_terminar_em_7 (preco : ℚ) : ℤ :=
  let preco_inteiro := pyInt preco
  let ultimo_digito := preco_inteiro % 10
  if ultimo_digito = 7 then preco_inteiro
  else if ultimo_digito > 7 then preco_inteiro - (ultimo_digito - 7)
  else preco_inteiro - ultimo_digito - 3

/-- The ASCII digit character for `n < 10`. -/
def asciiDigit (n : Nat) : Char := Char.ofNat (48 + n)

/-- Decimal digit characters of `n`, most significant first; `fuel` bounds the
recursion depth (any `fuel > log10 n` gives the full representation). -/
def natToStrAux : Nat → Nat → List Char
  | 0, _ => []
  | fuel + 1, n =>
    if n < 10 then [asciiDigit n]
    else natToStrAux fuel (n / 10) ++ [asciiDigit (n % 10)]

/-- Decimal representation of a natural number. -/
def natToStr (n : Nat) : String := ⟨natToStrAux (n + 1) n⟩

/-- Python `str()` on an int value. -/
def intToStr (i : ℤ) : String :=
  if i < 0 then "-" ++ natToStr i.natAbs else natToStr i.natAbs

/-- One entry of the `codigos` list built by `extrair_codigos_produtos`
(lines 129-147): page index, captured 5-digit code, full matched substring,
and the simplified y-position (set to the page number in the source). -/
structure CodigoInfo where
  pagina : Nat
  codigo : String
  texto_completo : String
  posicao_y : Nat
deriving DecidableEq

/-- The regex results for one page of the source document, as `re.finditer`
hands them to the scanner: `catMatches` has one entry per category pattern of
`padroes` (lines 80-96), in pattern order, each listing the
`(group(1), group(0))` pairs of that pattern's matches in the page text;
`genMatches` lists the `group(1)` captures of the generic standalone-5-digit
pattern (line 99), for which `group(0) = group(1)`. -/
structure PaginaTexto where
  catMatches : List (List (String × String))
  genMatches : List String

/-- The body of the per-page loop of `extrair_codigos_produtos`
(lines 115-147), acting on the running `codigos` list: append the matches of
all category patterns, then, if the running list still has no entry for this
page, append the generic-pattern matches. -/
def scanPage (page_num : Nat) (pg : PaginaTexto) (codigos : List CodigoInfo) :
    List CodigoInfo :=
  let codigos := codigos ++
    pg.catMatches.flatten.map (fun m => ⟨page_num, m.1, m.2, page_num⟩)
  if codigos.any (fun c => c.pagina == page_num) then codigos
  else codigos ++ pg.genMatches.map (fun cod => ⟨page_num, cod, cod, page_num⟩)

/-- `extrair_codigos_produtos` (lines 66-155) over the per-page regex
results, pages indexed from 0. -/
def extrair_codigos_produtos (pages : List PaginaTexto) : List CodigoInfo :=
  pages.enum.foldl (fun acc pp => scanPage pp.1 pp.2 acc) []

/-- Spec-side description of one page's contribution: all matches of all
category patterns; the generic-pattern matches exactly when no category
pattern matched on that page. -/
def scanPageSpec (page_num : Nat) (pg : PaginaTexto) : List CodigoInfo :=
  let cat := pg.catMatches.flatten.map
    (fun m => (⟨page_num, m.1, m.2, page_num⟩ : CodigoInfo))
  cat ++ (if cat.isEmpty then
    pg.genMatches.map (fun cod => (⟨page_num, cod, cod, page_num⟩ : CodigoInfo))
  else [])

/-- A spreadsheet cell as pandas hands it to `ler_excel_precos`: missing
(NaN), numeric, or textual. -/
inductive Cell where
  | nan : Cell
  | num : ℚ → Cell
  | str : String → Cell
deriving DecidableEq

/-- `pd.notna` on a cell. -/
def Cell.notna : Cell → Bool
  | .nan => false
  | _ => true

/-- Python `str()` on a cell value (numeric cells get the canonical rational
rendering; the claims never depend on the numeric text format). -/
def Cell.pyStr : Cell → String
  | .nan => "nan"
  | .num q => toString q
  | .str s => s

/-- One data row of the price source, restricted to the three columns the
loader reads positionally (lines 185-189): reference, size, cost. -/
structure Linha where
  referencia : Cell
  tamanho : Cell
  preco_custo : Cell
deriving DecidableEq

/-- The parsed price source: its column count and its data rows, in order. -/
structure Planilha where
  ncols : Nat
  rows : List Linha

/-- Python `str.isdigit`: non-empty and all digits. -/
def pyIsDigit (s : String) : Bool := !s.isEmpty && s.toList.all Char.isDigit

/-- Header-row detection (line 194): the first reference cell is a string
that is not all digits. -/
def isHeaderRow (r : Linha) : Bool :=
  match r.referencia with
  | .str s => !pyIsDigit s
  | _ => false

/-- `re.search(r'(\d+)', s)` (line 222): the first maximal run of decimal
digits in `s`, if any. -/
def firstDigitRun (s : String) : Option String :=
  match s.toList.dropWhile (fun c => !c.isDigit) with
  | [] => none
  | l => some ⟨l.takeWhile Char.isDigit⟩

/-- Numeric value of a list of digit characters, most significant first. -/
def digitsVal (l : List Char) : Nat :=
  l.foldl (fun a c => a * 10 + (c.toNat - 48)) 0

/-- Models Python `float()` on a plain decimal string: optional surrounding
whitespace, optional sign, digits with an optional fractional part. (The
exotic forms `float` also accepts — exponents, `inf`, `nan`, underscores —
do not occur in price cells and are modelled as parse failures.) -/
def parseFloat (s : String) : Option ℚ :=
  let l := s.trim.toList
  let signed : Bool × List Char :=
    match l with
    | '-' :: t => (true, t)
    | '+' :: t => (false, t)
    | _ => (false, l)
  let ip := signed.2.takeWhile Char.isDigit
  let rest := signed.2.drop ip.length
  let mag : Option ℚ :=
    match rest with
    | [] => if ip.isEmpty then none else some ((digitsVal ip : ℤ) : ℚ)
    | '.' :: fr =>
      if fr.all Char.isDigit && !(ip.isEmpty && fr.isEmpty) then
        some ((digitsVal ip : ℚ) + (digitsVal fr : ℚ) / ((10 : ℚ) ^ fr.length))
      else none
    | _ => none
  mag.map (fun v => if signed.1 then -v else v)

/-- Whether `pat` is an initial segment of the second list. -/
def seqStarts : List Char → List Char → Bool
  | [], _ => true
  | _ :: _, [] => false
  | p :: ps, c :: cs => p == c && seqStarts ps cs

/-- Whether `pat` occurs contiguously in the second list (Python `in` on
strings). -/
def seqContains (pat : List Char) : List Char → Bool
  | [] => pat.isEmpty
  | c :: cs => seqStarts pat (c :: cs) || seqContains pat cs

/-- The stray-header guard (line 205): the cost cell is a string containing
`"VALOR"` case-insensitively. -/
def containsValorHeader : Cell → Bool
  | .str s => seqContains "VALOR".toList s.toUpper.toList
  | _ => false

/-- Cost parsing (lines 209-212): textual cells get comma→dot replacement
then `float()`; numeric cells are used as is. -/
def parseCusto : Cell → Option ℚ
  | .num q => some q
  | .str s => parseFloat (s.replace "," ".")
  | .nan => none

/-- Code derivation from the reference cell (lines 217-226): numeric cells
are truncated to an integer and stringified; textual cells contribute their
first run of digits; otherwise the row is skipped. -/
def codigoOfCell : Cell → Option String
  | .num q => some (intToStr (pyInt q))
  | .str s => firstDigitRun s
  | .nan => none

/-- One normalized price record (the dict values built at lines 228-232). -/
structure Produto where
  tamanho : String
  preco_custo : ℚ
  preco_venda : ℚ
deriving DecidableEq

/-- Python dict assignment `d[k] = v` on an insertion-ordered association
list: overwrite in place if the key is present, else append. -/
def upsert (d : List (String × Produto)) (k : String) (v : Produto) :
    List (String × Produto) :=
  if d.any (fun e => e.1 == k) then
    d.map (fun e => if e.1 == k then (k, v) else e)
  else d ++ [(k, v)]

/-- Python dict lookup `d[k]` / `d.get(k)`. -/
def lookupD (d : List (String × Produto)) (k : String) : Option Produto :=
  (d.find? (fun e => e.1 == k)).map (fun e => e.2)

/-- Python `k in d`. -/
def memKey (d : List (String × Produto)) (k : String) : Bool :=
  d.any (fun e => e.1 == k)

/-- The body of the per-row loop of `ler_excel_precos` (lines 200-236);
`none` means the row is skipped (missing values, stray header, failed
numeric parse, or no digits in the reference). -/
def processRow (markup : ℚ) (row : Linha) : Option (String × Produto) :=
  if row.referencia.notna && row.preco_custo.notna then
    if containsValorHeader row.preco_custo then none
    else
      match parseCusto row.preco_custo with
      | none => none
      | some preco_custo =>
        let preco_venda := preco_custo * markup
        match codigoOfCell row.referencia with
        | none => none
        | some codigo =>
          some (codigo,
            ⟨if row.tamanho.notna then row.tamanho.pyStr else "",
             preco_custo, preco_venda⟩)
  else none

/-- `ler_excel_precos` (lines 157-241) on an already-parsed sheet: reject a
sheet with fewer than 3 columns; reading the first reference cell of an
empty sheet raises (pandas `iloc[0]` out of bounds), which the outer
`except` re-raises; otherwise drop a detected header row and fold the
remaining rows into the dict, skipped rows contributing nothing. -/
def ler_excel_precos (file : Planilha) (markup : ℚ) :
    Except String (List (String × Produto)) :=
  if file.ncols < 3 then
    .error "Erro ao ler o arquivo Excel: Formato de arquivo inválido: não possui colunas suficientes"
  else
    match file.rows with
    | [] => .error "Erro ao ler o arquivo Excel: single positional indexer is out-of-bounds"
    | r0 :: rest =>
      let dataRows := if isHeaderRow r0 then rest else r0 :: rest
      .ok (dataRows.foldl
        (fun d row =>
          match processRow markup row with
          | some cp => upsert d cp.1 cp.2
          | none => d) [])

/-- Whether every numeric reference value in a cell is non-negative (the
condition under which the derived key has no sign character). -/
def Cell.refNonNeg : Cell → Bool
  | .num q => decide (0 ≤ q)
  | _ => true

/-- One rasterized page as returned by `extrair_imagens_pdf` (lines 53-56):
its 0-based page index and its image path. -/
structure Imagem where
  pagina : Nat
  caminho : String
deriving DecidableEq

/-- The observable effect of `criar_pdf_com_precos` on one output page: its
page index, whether the colored footer band was painted over it, the list of
price labels prepared for it, and the drawn price line (if any). -/
structure PageOut where
  pagina : Nat
  tarja : Bool
  rotulos : List String
  linha : Option String
deriving DecidableEq

/-- The price label for one code occurrence (lines 394-407): look the code
up, round the sale price and format `"<matched text> - R$ <rounded>"`;
`none` when the code is not in the dict. -/
def rotuloDe (produtos_dict : List (String × Produto)) (ci : CodigoInfo) :
    Option String :=
  match lookupD produtos_dict ci.codigo with
  | some prod => some (ci.texto_completo ++ " - R$ "
      ++ intToStr (arredondar_preco_para_terminar_em_7 prod.preco_venda))
  | none => none

/-- One iteration of the page loop of `criar_pdf_com_precos`
(lines 359-436): band on every page after the cover; labels for this page's
codes that price successfully; if any, the line joins them with
`"   |   "`. -/
def renderPage (codigos : List CodigoInfo)
    (produtos_dict : List (String × Produto)) (page_num : Nat) : PageOut :=
  let codigos_pagina := codigos.filter (fun c => c.pagina == page_num)
  if codigos_pagina ≠ [] ∧ 0 < page_num then
    let textos_precos := codigos_pagina.filterMap (rotuloDe produtos_dict)
    if textos_precos ≠ [] then
      ⟨page_num, decide (0 < page_num), textos_precos,
       some (String.intercalate "   |   " textos_precos)⟩
    else ⟨page_num, decide (0 < page_num), textos_precos, none⟩
  else ⟨page_num, decide (0 < page_num), [], none⟩

/-- `criar_pdf_com_precos` (lines 307-452): pages are emitted in the order
of `sorted(imagens, key=lambda x: x['pagina'])` (line 359), one output page
per input image. -/
def criar_pdf_com_precos (imagens : List Imagem) (codigos : List CodigoInfo)
    (produtos_dict : List (String × Produto)) : List PageOut :=
  (List.insertionSort (fun a b => a.pagina ≤ b.pagina) imagens).map
    (fun img => renderPage codigos produtos_dict img.pagina)

/-- The number of labels actually drawn across the assembled document. -/
def labelsDrawn (saida : List PageOut) : Nat :=
  (saida.map (fun pg => pg.rotulos.length)).sum

/-- Spec-side: the sale price recorded for a code (`0` if the code is
absent; only used under a membership hypothesis). -/
def vendaDe (produtos_dict : List (String × Produto)) (k : String) : ℚ :=
  match lookupD produtos_dict k with
  | some prod => prod.preco_venda
  | none => 0

/-- Spec-side: the label drawn for one priced code occurrence, per the spec
formula `"<matched text> - R$ <rounded integer>"`. -/
def rotuloSpec (produtos_dict : List (String × Produto)) (ci : CodigoInfo) :
    String :=
  ci.texto_completo ++ " - R$ "
    ++ intToStr (arredondar_preco_para_terminar_em_7
        (vendaDe produtos_dict ci.codigo))

/-- `processar_pdf_com_markup` (lines 454-516): run the scanner, the loader
and the compositor, then return
`sum(1 for c in codigos if c['codigo'] in produtos_dict)` (line 497); a
loader failure propagates. -/
def processar_pdf_com_markup (imagens : List Imagem)
    (pages : List PaginaTexto) (tabela : Planilha) (markup : ℚ) :
    Except String Nat :=
  let codigos := extrair_codigos_produtos pages
  match ler_excel_precos tabela markup with
  | .error e => .error e
  | .ok produtos_dict =>
    let _saida := criar_pdf_com_precos imagens codigos produtos_dict
    .ok (codigos.foldl
      (fun acc c => if memKey produtos_dict c.codigo then acc + 1 else acc) 0)

end Catalogo

namespace Catalogo

/-- A lemma pinning `pyInt` to the floor on non-negative inputs (Python
`int()` truncates toward zero, which agrees with `floor` there). -/
theorem pyInt_eq_floor {v : ℚ} (h : 0 ≤ v) : pyInt v = ⌊v⌋ := by
  unfold pyInt
  rw [Rat.floor_def]
  exact Int.tdiv_eq_ediv (Rat.num_nonneg.mpr h) (Int.natCast_nonneg _)

/-- C1: for every non-negative input `v`, `arredondar_preco_para_terminar_em_7`
returns an integer `r` with `r % 10 = 7`, `r ≤ ⌊v⌋` and `r > ⌊v⌋ - 10` (so it
never rounds up), and it sends `52 ↦ 47`, `57.9 ↦ 57`, `59 ↦ 57`, `50 ↦ 47`. -/
theorem c1_rounding_law (v : ℚ) (hv : 0 ≤ v) :
    arredondar_preco_para_terminar_em_7 v % 10 = 7 ∧
    arredondar_preco_para_terminar_em_7 v ≤ ⌊v⌋ ∧
    ⌊v⌋ - 10 < arredondar_preco_para_terminar_em_7 v ∧
    arredondar_preco_para_terminar_em_7 52 = 47 ∧
    arredondar_preco_para_terminar_em_7 57.9 = 57 ∧
    arredondar_preco_para_terminar_em_7 59 = 57 ∧
    arredondar_preco_para_terminar_em_7 50 = 47 := by
  have hmain : arredondar_preco_para_terminar_em_7 v % 10 = 7 ∧
      arredondar_preco_para_terminar_em_7 v ≤ ⌊v⌋ ∧
      ⌊v⌋ - 10 < arredondar_preco_para_terminar_em_7 v := by
    simp only [arredondar_preco_para_terminar_em_7, pyInt_eq_floor hv]
    have h10 : (0 : ℤ) ≤ ⌊v⌋ % 10 := Int.emod_nonneg _ (by norm_num)
    have h10' : ⌊v⌋ % 10 < 10 := Int.emod_lt_of_pos _ (by norm_num)
    split_ifs <;> omega
  refine ⟨hmain.1, hmain.2.1, hmain.2.2, ?_, ?_, ?_, ?_⟩ <;>
    with_unfolding_all decide

/-- Witness for C1 at `v = 52`. -/
theorem c1_rounding_law_witness :
    (0 : ℚ) ≤ 52 ∧
    (arredondar_preco_para_terminar_em_7 52 % 10 = 7 ∧
     arredondar_preco_para_terminar_em_7 52 ≤ ⌊(52 : ℚ)⌋ ∧
     ⌊(52 : ℚ)⌋ - 10 < arredondar_preco_para_terminar_em_7 52 ∧
     arredondar_preco_para_terminar_em_7 52 = 47 ∧
     arredondar_preco_para_terminar_em_7 57.9 = 57 ∧
     arredondar_preco_para_terminar_em_7 59 = 57 ∧
     arredondar_preco_para_terminar_em_7 50 = 47) :=
  ⟨by norm_num, c1_rounding_law 52 (by norm_num)⟩

/-- Every entry appended for a page carries that page's index, so entries
accumulated from earlier pages can never trip the fallback check of a later
page. -/
theorem scanPage_eq_spec (page_num : Nat) (pg : PaginaTexto)
    (acc : List CodigoInfo) (hacc : ∀ c ∈ acc, c.pagina < page_num) :
    scanPage page_num pg acc = acc ++ scanPageSpec page_num pg := by
  unfold scanPage scanPageSpec
  have haccany : acc.any (fun c => c.pagina == page_num) = false := by
    rw [List.any_eq_false]
    intro c hc
    simp [Nat.ne_of_lt (hacc c hc)]
  cases hcat : pg.catMatches.flatten with
  | nil => simp [hcat, haccany]
  | cons m ms =>
    simp only [hcat, List.map_cons, List.any_append, haccany, Bool.false_or,
      List.any_cons, beq_self_eq_true, Bool.true_or, if_true,
      List.isEmpty_cons, Bool.false_eq_true, if_false, List.append_nil]

/-- The scanner over `enumFrom n`, with an accumulator whose entries all
belong to pages before `n`, appends exactly the per-page spec results. -/
theorem extrair_enumFrom (pages : List PaginaTexto) :
    ∀ (n : Nat) (acc : List CodigoInfo), (∀ c ∈ acc, c.pagina < n) →
      (List.enumFrom n pages).foldl (fun acc pp => scanPage pp.1 pp.2 acc) acc
        = acc ++ ((List.enumFrom n pages).map
            (fun pp => scanPageSpec pp.1 pp.2)).flatten := by
  induction pages with
  | nil => intro n acc _; simp
  | cons pg rest ih =>
    intro n acc hacc
    rw [List.enumFrom_cons]
    simp only [List.foldl_cons, List.map_cons, List.flatten_cons]
    rw [scanPage_eq_spec n pg acc hacc]
    rw [ih (n + 1) (acc ++ scanPageSpec n pg) ?_]
    · simp [List.append_assoc]
    · intro c hc
      rcases List.mem_append.mp hc with h | h
      · exact Nat.lt_succ_of_lt (hacc c h)
      · have : c.pagina = n := by
          unfold scanPageSpec at h
          rcases List.mem_append.mp h with h' | h'
          · obtain ⟨m, _, rfl⟩ := List.mem_map.mp h'
            rfl
          · split at h'
            · obtain ⟨m, _, rfl⟩ := List.mem_map.mp h'
              rfl
            · simp at h'
        omega

/-- C2: for every page, the scanner collects the matches of ALL category
patterns, and it appends the generic standalone-5-digit matches for a page
if and only if no category pattern matched on that page: the output is
exactly the concatenation of the per-page `scanPageSpec` results. -/
theorem c2_all_patterns_then_generic_fallback (pages : List PaginaTexto) :
    extrair_codigos_produtos pages
      = (pages.enum.map (fun pp => scanPageSpec pp.1 pp.2)).flatten := by
  unfold extrair_codigos_produtos
  rw [List.enum_eq_enumFrom, extrair_enumFrom pages 0 [] (by simp)]
  simp

/-- An entry of `upsert d k v` is either an old entry of `d` or `(k, v)`. -/
theorem mem_upsert {d : List (String × Produto)} {k : String} {v : Produto}
    {e : String × Produto} (h : e ∈ upsert d k v) : e ∈ d ∨ e = (k, v) := by
  unfold upsert at h
  split at h
  · obtain ⟨a, ha, hae⟩ := List.mem_map.mp h
    by_cases hk : a.1 == k
    · right; rw [if_pos hk] at hae; exact hae.symm
    · left; rw [if_neg hk] at hae; exact hae ▸ ha
  · rcases List.mem_append.mp h with h | h
    · exact Or.inl h
    · right; simpa using h

/-- A successfully processed row stores `sale = cost * markup` exactly. -/
theorem processRow_venda {m : ℚ} {row : Linha} {cp : String × Produto}
    (h : processRow m row = some cp) :
    cp.2.preco_venda = cp.2.preco_custo * m := by
  unfold processRow at h
  split at h
  · split at h
    · simp at h
    · split at h
      · simp at h
      · split at h
        · simp at h
        · injection h with h
          subst h
          rfl
  · simp at h

/-- The key under which a processed row is stored is derived from its
reference cell by `codigoOfCell`. -/
theorem processRow_codigo {m : ℚ} {row : Linha} {cp : String × Produto}
    (h : processRow m row = some cp) :
    codigoOfCell row.referencia = some cp.1 := by
  unfold processRow at h
  split at h
  · split at h
    · simp at h
    · split at h
      · simp at h
      · split at h
        · simp at h
        · rename_i hcod
          injection h with h
          subst h
          exact hcod
  · simp at h

/-- Every entry of the dict built by the row fold satisfies any property
that holds of the initial entries and of every processed row's output. -/
theorem foldl_rows_mem (m : ℚ) (P : String × Produto → Prop) :
    ∀ (rows : List Linha) (acc : List (String × Produto)),
      (∀ e ∈ acc, P e) →
      (∀ row ∈ rows, ∀ cp, processRow m row = some cp → P cp) →
      ∀ e ∈ rows.foldl (fun d row =>
          match processRow m row with
          | some cp => upsert d cp.1 cp.2
          | none => d) acc, P e := by
  intro rows
  induction rows with
  | nil => intro acc hacc _ e he; simpa using hacc e he
  | cons r rest ih =>
    intro acc hacc hrows e he
    simp only [List.foldl_cons] at he
    refine ih _ ?_ (fun row hrow => hrows row (List.mem_cons_of_mem _ hrow)) e he
    intro e' he'
    cases hr : processRow m r with
    | none => rw [hr] at he'; exact hacc e' he'
    | some cp =>
      rw [hr] at he'
      rcases mem_upsert he' with h | h
      · exact hacc e' h
      · subst h
        simpa using hrows r (List.mem_cons_self _ _) cp hr

/-- C4: every record stored by the loader has
`preco_venda = preco_custo * markup` exactly; no rounding at load time. -/
theorem c4_markup_exact (file : Planilha) (m : ℚ) (d : List (String × Produto))
    (h : ler_excel_precos file m = Except.ok d) (c : String) (p : Produto)
    (hmem : (c, p) ∈ d) : p.preco_venda = p.preco_custo * m := by
  obtain ⟨nc, rows⟩ := file
  unfold ler_excel_precos at h
  by_cases h3 : nc < 3
  · rw [if_pos h3] at h; simp at h
  · rw [if_neg h3] at h
    cases rows with
    | nil => simp at h
    | cons r0 rest =>
      injection h with h
      subst h
      exact foldl_rows_mem m (fun e => e.2.preco_venda = e.2.preco_custo * m)
        _ [] (by simp) (fun row _ cp hcp => processRow_venda hcp) (c, p) hmem

/-- Witness for C4 on a one-row source with cost 10 and markup 2. -/
theorem c4_markup_exact_witness :
    ler_excel_precos ⟨3, [⟨Cell.num 84831, Cell.str "P", Cell.num 10⟩]⟩ 2
      = Except.ok [("84831", ⟨"P", 10, 20⟩)] ∧
    ("84831", (⟨"P", 10, 20⟩ : Produto)) ∈
      [("84831", (⟨"P", 10, 20⟩ : Produto))] ∧
    (⟨"P", 10, 20⟩ : Produto).preco_venda
      = (⟨"P", 10, 20⟩ : Produto).preco_custo * 2 :=
  ⟨by with_unfolding_all rfl, by simp,
   c4_markup_exact ⟨3, [⟨Cell.num 84831, Cell.str "P", Cell.num 10⟩]⟩ 2
     [("84831", ⟨"P", 10, 20⟩)] (by with_unfolding_all rfl) "84831"
     ⟨"P", 10, 20⟩ (by simp)⟩

/-- C3: loading a two-row source whose rows derive the same code yields the
single record of the later row (last-write-wins), whatever becomes of the
earlier row (processed and overwritten, skipped, or taken for a header). -/
theorem c3_last_write_wins (m : ℚ) (r1 r2 : Linha) (c : String) (p2 : Produto)
    (h1 : codigoOfCell r1.referencia = some c)
    (h2 : processRow m r2 = some (c, p2)) :
    ler_excel_precos ⟨3, [r1, r2]⟩ m = Except.ok [(c, p2)] := by
  unfold ler_excel_precos
  rw [if_neg (by norm_num)]
  by_cases hh : isHeaderRow r1
  · simp [hh, h2, upsert]
  · cases hp1 : processRow m r1 with
    | none => simp [hh, hp1, h2, upsert]
    | some cp1 =>
      have hc1 : cp1.1 = c := by
        have hcod := processRow_codigo hp1
        rw [h1] at hcod
        exact (Option.some_inj.mp hcod).symm
      simp [hh, hp1, h2, upsert, hc1]

/-- Witness for C3: two numeric rows with reference 84831; the second row's
size and cost win. -/
theorem c3_last_write_wins_witness :
    codigoOfCell (Cell.num 84831) = some "84831" ∧
    processRow 2 ⟨Cell.num 84831, Cell.str "M", Cell.num 20⟩
      = some ("84831", ⟨"M", 20, 40⟩) ∧
    ler_excel_precos
        ⟨3, [⟨Cell.num 84831, Cell.str "P", Cell.num 10⟩,
             ⟨Cell.num 84831, Cell.str "M", Cell.num 20⟩]⟩ 2
      = Except.ok [("84831", ⟨"M", 20, 40⟩)] :=
  ⟨by with_unfolding_all rfl, by with_unfolding_all rfl,
   c3_last_write_wins 2 _ _ "84831" ⟨"M", 20, 40⟩ (by with_unfolding_all rfl)
     (by with_unfolding_all rfl)⟩

/-- C5 fails as stated: a well-shaped (3-column) source with zero data rows
also aborts the run — reading the first reference cell of the empty frame
raises, and the outer handler re-raises it — although the claim allows a
fatal error only for a short column count or an unopenable source. -/
theorem c5_counterexample :
    ler_excel_precos ⟨3, []⟩ 2
      = Except.error "Erro ao ler o arquivo Excel: single positional indexer is out-of-bounds" := by
  rfl

/-- C5 (amended): the loader returns a mapping exactly when the source has
at least 3 columns and at least one data row; bad rows never abort it. -/
theorem c5_loader_aborts_iff (file : Planilha) (m : ℚ) :
    (∃ d, ler_excel_precos file m = Except.ok d)
      ↔ 3 ≤ file.ncols ∧ file.rows ≠ [] := by
  obtain ⟨nc, rows⟩ := file
  unfold ler_excel_precos
  constructor
  · rintro ⟨d, hd⟩
    by_cases h3 : nc < 3
    · rw [if_pos h3] at hd; simp at hd
    · refine ⟨by simpa using Nat.le_of_not_lt h3, ?_⟩
      cases rows with
      | nil => rw [if_neg h3] at hd; simp at hd
      | cons r0 rest => simp
  · rintro ⟨h3, hne⟩
    rw [if_neg (by omega)]
    cases rows with
    | nil => simp at hne
    | cons r0 rest => exact ⟨_, rfl⟩

/-- `asciiDigit n` is a digit character for `n < 10`. -/
theorem asciiDigit_isDigit {n : Nat} (h : n < 10) :
    (asciiDigit n).isDigit = true := by
  interval_cases n <;> decide

/-- Every character emitted by `natToStrAux` is a decimal digit. -/
theorem natToStrAux_all_digits :
    ∀ fuel n, (natToStrAux fuel n).all Char.isDigit = true := by
  intro fuel
  induction fuel with
  | zero => intro n; rfl
  | succ f ih =>
    intro n
    unfold natToStrAux
    split
    · rename_i h
      simp [asciiDigit_isDigit h]
    · simp [List.all_append, ih (n / 10),
        asciiDigit_isDigit (Nat.mod_lt n (by norm_num))]

/-- `natToStrAux` with positive fuel never returns the empty list. -/
theorem natToStrAux_ne_nil (fuel n : Nat) (h : 0 < fuel) :
    natToStrAux fuel n ≠ [] := by
  cases fuel with
  | zero => omega
  | succ f => unfold natToStrAux; split <;> simp

/-- The decimal representation of a natural number is a non-empty digit
string. -/
theorem natToStr_digits (n : Nat) :
    natToStr n ≠ "" ∧ (natToStr n).toList.all Char.isDigit = true := by
  constructor
  · intro hc
    rw [String.ext_iff] at hc
    exact natToStrAux_ne_nil (n + 1) n (Nat.succ_pos n) hc
  · exact natToStrAux_all_digits _ _

/-- `str(i)` for a non-negative integer is a non-empty digit string. -/
theorem intToStr_nonneg_digits {i : ℤ} (h : 0 ≤ i) :
    intToStr i ≠ "" ∧ (intToStr i).toList.all Char.isDigit = true := by
  unfold intToStr
  rw [if_neg (by omega)]
  exact natToStr_digits _

/-- If `dropWhile p` produces a cons, its head falsifies `p`. -/
theorem dropWhile_head_false {α : Type} {p : α → Bool} :
    ∀ (l : List α) (hd : α) (tl : List α),
      l.dropWhile p = hd :: tl → p hd = false := by
  intro l
  induction l with
  | nil => intro hd tl h; simp at h
  | cons a as ih =>
    intro hd tl h
    rw [List.dropWhile_cons] at h
    by_cases hp : p a
    · rw [if_pos hp] at h
      exact ih hd tl h
    · rw [if_neg hp] at h
      injection h with h1 _
      subst h1
      simpa using hp

/-- A successful `firstDigitRun` is a non-empty digit string. -/
theorem firstDigitRun_digits {s : String} {c : String}
    (h : firstDigitRun s = some c) :
    c ≠ "" ∧ c.toList.all Char.isDigit = true := by
  unfold firstDigitRun at h
  rcases hdw : s.toList.dropWhile (fun ch => !ch.isDigit) with _ | ⟨hd, tl⟩
  · rw [hdw] at h; simp at h
  · rw [hdw] at h
    injection h with h
    subst h
    have hhd : hd.isDigit = true := by
      have := dropWhile_head_false _ _ _ hdw
      simpa using this
    rw [List.takeWhile_cons, if_pos hhd]
    constructor
    · intro hc
      rw [String.ext_iff] at hc
      simp at hc
    · rw [show (⟨hd :: tl.takeWhile Char.isDigit⟩ : String).toList
          = hd :: tl.takeWhile Char.isDigit from rfl]
      rw [List.all_cons, hhd, Bool.true_and, List.all_eq_true]
      exact fun x hx => List.mem_takeWhile_imp hx

/-- A derived code is a non-empty digit string whenever a numeric reference
cell is non-negative. -/
theorem codigoOfCell_digits {cell : Cell} {c : String}
    (hnn : cell.refNonNeg = true) (h : codigoOfCell cell = some c) :
    c ≠ "" ∧ c.toList.all Char.isDigit = true := by
  cases cell with
  | nan => simp [codigoOfCell] at h
  | num q =>
    have hq : 0 ≤ q := by simpa [Cell.refNonNeg] using hnn
    have hge : 0 ≤ pyInt q := by
      rw [pyInt_eq_floor hq]
      exact Int.floor_nonneg.mpr hq
    simp only [codigoOfCell, Option.some_inj] at h
    subst h
    exact intToStr_nonneg_digits hge
  | str s => exact firstDigitRun_digits h

/-- C10 (amended): every key of the loader's mapping is a non-empty string
of decimal digits, provided every numeric reference cell is non-negative (a
negative numeric reference would be stored under a key with a leading minus
sign); numeric references are truncated toward zero before stringification
(so 84831 and 84831.9 collide on key `"84831"`), textual references
contribute their first run of digits, and a row with no digits in its
reference is never inserted. -/
theorem c10_keys_are_digits (file : Planilha) (m : ℚ)
    (d : List (String × Produto)) (h : ler_excel_precos file m = Except.ok d)
    (href : ∀ row ∈ file.rows, row.referencia.refNonNeg = true)
    (c : String) (p : Produto) (hmem : (c, p) ∈ d) :
    (c ≠ "" ∧ c.toList.all Char.isDigit = true) ∧
    codigoOfCell (Cell.num 84831) = some "84831" ∧
    codigoOfCell (Cell.num 84831.9) = some "84831" ∧
    codigoOfCell (Cell.str "Ref 84831.9") = some "84831" ∧
    processRow m ⟨Cell.str "sem codigo", Cell.nan, Cell.num 10⟩ = none := by
  refine ⟨?_, by with_unfolding_all rfl, by with_unfolding_all rfl,
    by with_unfolding_all rfl, by with_unfolding_all rfl⟩
  obtain ⟨nc, rows⟩ := file
  unfold ler_excel_precos at h
  by_cases h3 : nc < 3
  · rw [if_pos h3] at h; simp at h
  · rw [if_neg h3] at h
    cases rows with
    | nil => simp at h
    | cons r0 rest =>
      injection h with h
      subst h
      refine foldl_rows_mem m
        (fun e => e.1 ≠ "" ∧ e.1.toList.all Char.isDigit = true)
        _ [] (by simp) ?_ (c, p) hmem
      intro row hrow cp hcp
      have hrow' : row ∈ r0 :: rest := by
        by_cases hh : isHeaderRow r0
        · rw [if_pos hh] at hrow
          exact List.mem_cons_of_mem _ hrow
        · rwa [if_neg hh] at hrow
      exact codigoOfCell_digits (href row hrow') (processRow_codigo hcp)

/-- C10 fails as stated: a source whose (numeric) reference is negative
produces the key `"-5"`, which is not a digit string. -/
theorem c10_counterexample :
    ler_excel_precos ⟨3, [⟨Cell.num (-5), Cell.nan, Cell.num 10⟩]⟩ 2
      = Except.ok [("-5", ⟨"", 10, 20⟩)] ∧
    ¬("-5" ≠ "" ∧ "-5".toList.all Char.isDigit = true) := by
  constructor
  · with_unfolding_all rfl
  · decide

/-- Witness for C10 on a one-row non-negative source. -/
theorem c10_keys_are_digits_witness :
    ler_excel_precos ⟨3, [⟨Cell.num 84831, Cell.nan, Cell.num 10⟩]⟩ 2
      = Except.ok [("84831", ⟨"", 10, 20⟩)] ∧
    (∀ row ∈ ([⟨Cell.num 84831, Cell.nan, Cell.num 10⟩] : List Linha),
      row.referencia.refNonNeg = true) ∧
    (("84831" ≠ "" ∧ "84831".toList.all Char.isDigit = true) ∧
     codigoOfCell (Cell.num 84831) = some "84831" ∧
     codigoOfCell (Cell.num 84831.9) = some "84831" ∧
     codigoOfCell (Cell.str "Ref 84831.9") = some "84831" ∧
     processRow 2 ⟨Cell.str "sem codigo", Cell.nan, Cell.num 10⟩ = none) :=
  ⟨by with_unfolding_all rfl,
   by
     simp only [List.mem_singleton]
     rintro row rfl
     with_unfolding_all decide,
   c10_keys_are_digits ⟨3, [⟨Cell.num 84831, Cell.nan, Cell.num 10⟩]⟩ 2
     [("84831", ⟨"", 10, 20⟩)] (by with_unfolding_all rfl)
     (by
       simp only [List.mem_singleton]
       rintro row rfl
       with_unfolding_all decide)
     "84831" ⟨"", 10, 20⟩ (by simp)⟩

/-- The output page built for page index `p` carries page index `p`. -/
theorem renderPage_pagina (codigos : List CodigoInfo)
    (produtos_dict : List (String × Produto)) (p : Nat) :
    (renderPage codigos produtos_dict p).pagina = p := by
  unfold renderPage
  dsimp only
  split_ifs <;> rfl

/-- C6: the cover page (index 0) is emitted untouched — no band is painted
and no price line or label is drawn — whatever codes matched on it. -/
theorem c6_cover_page_untouched (imagens : List Imagem)
    (codigos : List CodigoInfo) (produtos_dict : List (String × Produto))
    (out : PageOut)
    (hmem : out ∈ criar_pdf_com_precos imagens codigos produtos_dict)
    (h0 : out.pagina = 0) :
    out.tarja = false ∧ out.linha = none ∧ out.rotulos = [] := by
  unfold criar_pdf_com_precos at hmem
  obtain ⟨img, _, rfl⟩ := List.mem_map.mp hmem
  rw [renderPage_pagina] at h0
  rw [h0]
  unfold renderPage
  rw [if_neg (by simp)]
  exact ⟨rfl, rfl, rfl⟩

/-- Witness for C6: a one-page document whose cover has a priced match. -/
theorem c6_cover_page_untouched_witness :
    (⟨0, false, [], none⟩ : PageOut) ∈
      criar_pdf_com_precos [⟨0, "page_1.png"⟩]
        [⟨0, "11111", "CAMISA 11111", 0⟩] [("11111", ⟨"", 10, 20⟩)] ∧
    (⟨0, false, [], none⟩ : PageOut).pagina = 0 ∧
    ((⟨0, false, [], none⟩ : PageOut).tarja = false ∧
     (⟨0, false, [], none⟩ : PageOut).linha = none ∧
     (⟨0, false, [], none⟩ : PageOut).rotulos = []) :=
  ⟨by with_unfolding_all decide, rfl,
   c6_cover_page_untouched [⟨0, "page_1.png"⟩]
     [⟨0, "11111", "CAMISA 11111", 0⟩] [("11111", ⟨"", 10, 20⟩)]
     ⟨0, false, [], none⟩ (by with_unfolding_all decide) rfl⟩

/-- C9: whatever the order of the rasterized page list, the output pages
appear in strictly ascending page-index order (under the rasterizer's
guarantee of distinct page indices), and the emitted page indices are
exactly those of the input images — indices with no image are absent. -/
theorem c9_output_order (imagens : List Imagem) (codigos : List CodigoInfo)
    (produtos_dict : List (String × Produto))
    (hnd : (imagens.map (fun i => i.pagina)).Nodup) :
    ((criar_pdf_com_precos imagens codigos produtos_dict).map
        (fun o => o.pagina)).Sorted (· < ·) ∧
    ((criar_pdf_com_precos imagens codigos produtos_dict).map
        (fun o => o.pagina)).Perm (imagens.map (fun i => i.pagina)) := by
  haveI : IsTotal Imagem (fun a b => a.pagina ≤ b.pagina) :=
    ⟨fun a b => Nat.le_total _ _⟩
  haveI : IsTrans Imagem (fun a b => a.pagina ≤ b.pagina) :=
    ⟨fun _ _ _ hab hbc => Nat.le_trans hab hbc⟩
  have hmap : (criar_pdf_com_precos imagens codigos produtos_dict).map
      (fun o => o.pagina)
      = (List.insertionSort (fun a b => a.pagina ≤ b.pagina) imagens).map
          (fun i => i.pagina) := by
    unfold criar_pdf_com_precos
    rw [List.map_map]
    simp [Function.comp_def, renderPage_pagina]
  have hperm : ((criar_pdf_com_precos imagens codigos produtos_dict).map
      (fun o => o.pagina)).Perm (imagens.map (fun i => i.pagina)) := by
    rw [hmap]
    exact (List.perm_insertionSort _ _).map _
  refine ⟨?_, hperm⟩
  rw [hmap]
  have hle : ((List.insertionSort (fun a b => a.pagina ≤ b.pagina)
      imagens).map (fun i => i.pagina)).Sorted (· ≤ ·) := by
    rw [List.Sorted, List.pairwise_map]
    exact List.sorted_insertionSort _ _
  have hnd' : ((List.insertionSort (fun a b => a.pagina ≤ b.pagina)
      imagens).map (fun i => i.pagina)).Nodup := by
    refine (List.Perm.nodup_iff ?_).mpr hnd
    exact (List.perm_insertionSort _ _).map _
  exact hle.lt_of_le hnd'

/-- Witness for C9 on three pages listed out of order. -/
theorem c9_output_order_witness :
    (([⟨2, "c"⟩, ⟨0, "a"⟩, ⟨1, "b"⟩] : List Imagem).map
        (fun i => i.pagina)).Nodup ∧
    (((criar_pdf_com_precos [⟨2, "c"⟩, ⟨0, "a"⟩, ⟨1, "b"⟩] [] []).map
        (fun o => o.pagina)).Sorted (· < ·) ∧
     ((criar_pdf_com_precos [⟨2, "c"⟩, ⟨0, "a"⟩, ⟨1, "b"⟩] [] []).map
        (fun o => o.pagina)).Perm
       (([⟨2, "c"⟩, ⟨0, "a"⟩, ⟨1, "b"⟩] : List Imagem).map
         (fun i => i.pagina))) :=
  ⟨by decide, c9_output_order [⟨2, "c"⟩, ⟨0, "a"⟩, ⟨1, "b"⟩] [] []
    (by decide)⟩

/-- `k in d` holds exactly when lookup succeeds. -/
theorem memKey_eq_isSome (d : List (String × Produto)) (k : String) :
    memKey d k = (lookupD d k).isSome := by
  unfold memKey lookupD
  induction d with
  | nil => rfl
  | cons e rest ih =>
    rw [List.any_cons, List.find?_cons]
    by_cases he : e.1 == k <;> simp [he, ih]

/-- The labels a page's code list produces are exactly the spec labels of
its priced occurrences, in order. -/
theorem filterMap_rotuloDe (produtos_dict : List (String × Produto)) :
    ∀ L : List CodigoInfo,
      L.filterMap (rotuloDe produtos_dict)
        = (L.filter (fun ci => memKey produtos_dict ci.codigo)).map
            (rotuloSpec produtos_dict) := by
  intro L
  induction L with
  | nil => rfl
  | cons ci rest ih =>
    rw [List.filterMap_cons, List.filter_cons]
    cases hl : lookupD produtos_dict ci.codigo with
    | none =>
      have hmk : memKey produtos_dict ci.codigo = false := by
        rw [memKey_eq_isSome, hl]; rfl
      simp only [rotuloDe, hl, hmk, Bool.false_eq_true, if_false, ih]
    | some prod =>
      have hmk : memKey produtos_dict ci.codigo = true := by
        rw [memKey_eq_isSome, hl]; rfl
      simp only [rotuloDe, hl, hmk, if_true, List.map_cons, ih,
        rotuloSpec, vendaDe]

/-- C7 fails as stated: the separator the code joins labels with is
`"   |   "` (three spaces around the bar), not `" | "`; a page with two
priced matches shows the difference. -/
theorem c7_counterexample :
    (criar_pdf_com_precos [⟨1, "page_2.png"⟩]
        [⟨1, "11111", "CAMISA 11111", 1⟩, ⟨1, "22222", "BONE 22222", 1⟩]
        [("11111", ⟨"", 10, 20⟩), ("22222", ⟨"", 10, 20⟩)]).map
      (fun o => o.linha)
      = [some "CAMISA 11111 - R$ 17   |   BONE 22222 - R$ 17"] ∧
    some "CAMISA 11111 - R$ 17   |   BONE 22222 - R$ 17"
      ≠ some (String.intercalate " | "
          ["CAMISA 11111 - R$ 17", "BONE 22222 - R$ 17"]) := by
  constructor
  · with_unfolding_all rfl
  · with_unfolding_all decide

/-- C7 (amended): for every non-cover page with at least one priced match,
the drawn line is the per-match labels
`"<matched text> - R$ <rounded integer>"` joined with the separator
`"   |   "`. -/
theorem c7_band_line (imagens : List Imagem) (codigos : List CodigoInfo)
    (produtos_dict : List (String × Produto)) (out : PageOut)
    (hmem : out ∈ criar_pdf_com_precos imagens codigos produtos_dict)
    (hpos : 0 < out.pagina)
    (hex : ∃ ci ∈ codigos, ci.pagina = out.pagina
        ∧ memKey produtos_dict ci.codigo = true) :
    out.linha = some (String.intercalate "   |   "
      ((codigos.filter (fun ci => ci.pagina == out.pagina
          && memKey produtos_dict ci.codigo)).map
        (rotuloSpec produtos_dict))) := by
  unfold criar_pdf_com_precos at hmem
  obtain ⟨img, _, rfl⟩ := List.mem_map.mp hmem
  rw [renderPage_pagina] at hpos hex ⊢
  obtain ⟨ci, hci, hcp, hck⟩ := hex
  have hcimem : ci ∈ codigos.filter (fun c => c.pagina == img.pagina) := by
    rw [List.mem_filter]
    exact ⟨hci, by simp [hcp]⟩
  have hne : codigos.filter (fun c => c.pagina == img.pagina) ≠ [] := by
    intro h0
    rw [h0] at hcimem
    simp at hcimem
  have hlabels : (codigos.filter (fun c => c.pagina == img.pagina)).filterMap
      (rotuloDe produtos_dict)
      = (codigos.filter (fun c => c.pagina == img.pagina
          && memKey produtos_dict c.codigo)).map (rotuloSpec produtos_dict) := by
    rw [filterMap_rotuloDe, List.filter_filter]
    congr 1
    apply List.filter_congr
    intro c _
    exact Bool.and_comm _ _
  have htne : (codigos.filter (fun c => c.pagina == img.pagina)).filterMap
      (rotuloDe produtos_dict) ≠ [] := by
    rw [hlabels]
    intro h0
    have : ci ∈ codigos.filter (fun c => c.pagina == img.pagina
        && memKey produtos_dict c.codigo) := by
      rw [List.mem_filter]
      exact ⟨hci, by simp [hcp, hck]⟩
    have := List.mem_map_of_mem (rotuloSpec produtos_dict) this
    rw [h0] at this
    simp at this
  unfold renderPage
  rw [if_pos ⟨hne, hpos⟩, if_pos htne]
  rw [hlabels]

/-- Witness for C7 on a one-page document with a single priced match. -/
theorem c7_band_line_witness :
    (⟨1, true, ["CAMISA 11111 - R$ 17"],
        some "CAMISA 11111 - R$ 17"⟩ : PageOut) ∈
      criar_pdf_com_precos [⟨1, "page_2.png"⟩]
        [⟨1, "11111", "CAMISA 11111", 1⟩] [("11111", ⟨"", 10, 20⟩)] ∧
    (0 : Nat) < 1 ∧
    (∃ ci ∈ ([⟨1, "11111", "CAMISA 11111", 1⟩] : List CodigoInfo),
      ci.pagina = 1 ∧ memKey [("11111", ⟨"", 10, 20⟩)] ci.codigo = true) ∧
    (⟨1, true, ["CAMISA 11111 - R$ 17"],
        some "CAMISA 11111 - R$ 17"⟩ : PageOut).linha
      = some (String.intercalate "   |   "
          ((([⟨1, "11111", "CAMISA 11111", 1⟩] : List CodigoInfo).filter
              (fun ci => ci.pagina == 1
                && memKey [("11111", ⟨"", 10, 20⟩)] ci.codigo)).map
            (rotuloSpec [("11111", ⟨"", 10, 20⟩)]))) :=
  ⟨by with_unfolding_all decide, by decide, by with_unfolding_all decide,
   c7_band_line [⟨1, "page_2.png"⟩] [⟨1, "11111", "CAMISA 11111", 1⟩]
     [("11111", ⟨"", 10, 20⟩)]
     ⟨1, true, ["CAMISA 11111 - R$ 17"], some "CAMISA 11111 - R$ 17"⟩
     (by with_unfolding_all decide) (by decide)
     (by with_unfolding_all decide)⟩

/-- Folding the 1-counter over the code list counts the priced matches. -/
theorem count_foldl (produtos_dict : List (String × Produto)) :
    ∀ (l : List CodigoInfo) (n : Nat),
      l.foldl (fun acc c =>
          if memKey produtos_dict c.codigo then acc + 1 else acc) n
        = n + l.countP (fun c => memKey produtos_dict c.codigo) := by
  intro l
  induction l with
  | nil => intro n; simp
  | cons c rest ih =>
    intro n
    rw [List.foldl_cons, List.countP_cons]
    by_cases hc : memKey produtos_dict c.codigo
    · rw [if_pos hc, ih]
      simp [hc]
      omega
    · rw [if_neg hc, ih]
      simp [hc]

/-- C8: the orchestrator returns the number of code-match occurrences —
every occurrence, on every page including the cover — whose code is a key
of the price mapping; and this can differ from the number of labels
actually drawn. -/
theorem c8_success_count (imagens : List Imagem) (pages : List PaginaTexto)
    (tabela : Planilha) (markup : ℚ) (produtos_dict : List (String × Produto))
    (h : ler_excel_precos tabela markup = Except.ok produtos_dict) :
    processar_pdf_com_markup imagens pages tabela markup
      = Except.ok ((extrair_codigos_produtos pages).countP
          (fun c => memKey produtos_dict c.codigo)) ∧
    (∃ (im : List Imagem) (pg : List PaginaTexto) (tb : Planilha) (mk : ℚ)
        (d : List (String × Produto)) (n : Nat),
      ler_excel_precos tb mk = Except.ok d ∧
      processar_pdf_com_markup im pg tb mk = Except.ok n ∧
      n ≠ labelsDrawn (criar_pdf_com_precos im
        (extrair_codigos_produtos pg) d)) := by
  constructor
  · unfold processar_pdf_com_markup
    rw [h]
    dsimp only
    rw [count_foldl]
    simp
  · refine ⟨[⟨0, "page_1.png"⟩], [⟨[[("11111", "CAMISA 11111")]], []⟩],
      ⟨3, [⟨Cell.num 11111, Cell.nan, Cell.num 10⟩]⟩, 2,
      [("11111", ⟨"", 10, 20⟩)], 1, ?_, ?_, ?_⟩
    · with_unfolding_all rfl
    · with_unfolding_all rfl
    · with_unfolding_all decide

/-- Witness for C8 on a one-page, one-row run. -/
theorem c8_success_count_witness :
    ler_excel_precos ⟨3, [⟨Cell.num 11111, Cell.nan, Cell.num 10⟩]⟩ 2
      = Except.ok [("11111", ⟨"", 10, 20⟩)] ∧
    processar_pdf_com_markup [⟨0, "page_1.png"⟩]
        [⟨[[("11111", "CAMISA 11111")]], []⟩]
        ⟨3, [⟨Cell.num 11111, Cell.nan, Cell.num 10⟩]⟩ 2
      = Except.ok ((extrair_codigos_produtos
          [⟨[[("11111", "CAMISA 11111")]], []⟩]).countP
          (fun c => memKey [("11111", ⟨"", 10, 20⟩)] c.codigo)) :=
  ⟨by with_unfolding_all rfl,
   (c8_success_count [⟨0, "page_1.png"⟩] [⟨[[("11111", "CAMISA 11111")]], []⟩]
     ⟨3, [⟨Cell.num 11111, Cell.nan, Cell.num 10⟩]⟩ 2
     [("11111", ⟨"", 10, 20⟩)] (by with_unfolding_all rfl)).1⟩

end Catalogo
